import Mathlib

/-!
Shallow embedding of the best-model selection and multi-algorithm comparison
logic of the Machine_Learning1_server backend:

* `findBestModel` / `compareModels` from the model-comparison controller
  (src/unnamed/part_002), and
* the `trainMultipleModels` orchestrator (src/controllers/modelComparison.js):
  per-cell numeric coercion, positional train/test split, the per-algorithm
  training loop with local error recording, best-model tracking and the
  HTTP response.

JavaScript numbers are modelled as exact rationals (`ℚ`); the sentinel
`-Infinity` used by the code is modelled as `⊥` in `WithBot ℚ`; the JS
`||` operator's falsiness (`undefined`, `null` and `0` are falsy) is
modelled explicitly.  Mutable JS objects become functional records; the
remote ML service is an oracle `String → Except String TrainResult`
mapping an algorithm name to its training outcome.
-/

namespace MLServer

/-- The scalar metric fields that the comparison code reads out of a
`training_metrics` / `test_metrics` / `metrics` map.  `none` models an
absent (`undefined`) field. -/
structure Metrics where
  accuracy : Option ℚ := none
  f1_score : Option ℚ := none
  r2_score : Option ℚ := none
  silhouette_score : Option ℚ := none
deriving Repr, DecidableEq

/-- A per-model result record as consumed by `findBestModel`: optional
flattened scalar metrics, an optional nested `test_metrics` map, and the
`primaryMetric` annotation that `findBestModel` writes onto the winner
(absent on results as they arrive from the ML service). -/
structure ModelResult where
  f1_score : Option ℚ := none
  r2_score : Option ℚ := none
  silhouette_score : Option ℚ := none
  test_metrics : Option Metrics := none
  primaryMetric : Option ℚ := none
deriving Repr, DecidableEq

/-- JS truthiness filter on an optional number: `undefined`/`null` and `0`
are falsy, every other number is truthy.  `jsTruthy a` is `some x` exactly
when the JS value is truthy. -/
def jsTruthy (a : Option ℚ) : Option ℚ :=
  match a with
  | some x => if x = 0 then none else some x
  | none => none

/-- A JS `a || b || c || ...` chain over optional numbers: the first truthy
operand, if any. -/
def jsChain (l : List (Option ℚ)) : Option ℚ :=
  l.findSome? jsTruthy

/-- `best.f1_score || best.test_metrics?.f1_score || 0`
(classification branch of `findBestModel`). -/
def clsMetric (m : ModelResult) : ℚ :=
  (jsChain [m.f1_score, m.test_metrics.bind Metrics.f1_score]).getD 0

/-- `best.r2_score || best.test_metrics?.r2_score || -Infinity`
(the value the regression branch of `findBestModel` *compares*).
`⊥` stands for JS `-Infinity`. -/
def regMetricCmp (m : ModelResult) : WithBot ℚ :=
  match jsChain [m.r2_score, m.test_metrics.bind Metrics.r2_score] with
  | some x => (x : WithBot ℚ)
  | none => ⊥

/-- `best.r2_score || best.test_metrics?.r2_score || 0`
(the value the regression branch writes into `primaryMetric`). -/
def regMetricPrim (m : ModelResult) : ℚ :=
  (jsChain [m.r2_score, m.test_metrics.bind Metrics.r2_score]).getD 0

/-- `best.silhouette_score || 0` (clustering branch of `findBestModel`). -/
def clusMetric (m : ModelResult) : ℚ :=
  (jsChain [m.silhouette_score]).getD 0

/-- The linear scan of `findBestModel`: running best `b`, replaced by a later
element exactly when that element's extracted metric is strictly greater
(`currentX > bestX`). -/
def runBest {α β : Type*} [LinearOrder β] (ext : α → β) (b : α) (l : List α) : α :=
  l.foldl (fun best m => if ext best < ext m then m else best) b

/-- `findBestModel(models, problemType)` from the model-comparison controller
(src/unnamed/part_002, lines 151–192).  Empty input returns `null`; otherwise
the running best starts at `models[0]` and the `for (let model of models)`
loop scans the whole array; the winner is annotated with `primaryMetric`.
A problem type outside classification/regression/clustering falls through
every branch, so `models[0]` is returned unchanged.  (In JS the annotation
mutates the winning object in place; here it is a functional update.) -/
def findBestModel (models : List ModelResult) (problemType : String) : Option ModelResult :=
  match models with
  | [] => none
  | m0 :: _ =>
    if problemType = "classification" then
      let best := runBest clsMetric m0 models
      some { best with primaryMetric := some (clsMetric best) }
    else if problemType = "regression" then
      let best := runBest regMetricCmp m0 models
      some { best with primaryMetric := some (regMetricPrim best) }
    else if problemType = "clustering" then
      let best := runBest clusMetric m0 models
      some { best with primaryMetric := some (clusMetric best) }
    else
      some m0

/-! ## The `trainMultipleModels` orchestrator (src/controllers/modelComparison.js) -/

/-- The body returned by the remote `POST /ml/train` call, restricted to the
fields the orchestrator reads (`test_metrics`, `training_metrics`,
`metrics`). -/
structure TrainResult where
  test_metrics : Option Metrics := none
  training_metrics : Option Metrics := none
  metrics : Option Metrics := none
deriving Repr, DecidableEq

/-- One entry of the orchestrator's `results` object: either the remote
result, or — when the remote call threw — the error record
`{ error: msg, training_metrics: null }`. -/
inductive TrainEntry where
  | ok (r : TrainResult)
  | err (msg : String)
deriving Repr, DecidableEq

/-- The `bestModel` object the orchestrator builds:
`{ algorithm, score, metrics }`. -/
structure BestModel where
  algorithm : String
  score : ℚ
  metrics : Option Metrics
deriving Repr, DecidableEq

/-- Lines 100–108 of the orchestrator: `let score = 0;` then, per problem
type, a `test → training → 0` fallback chain (clustering reads the flat
`metrics` map); any other problem type leaves `score = 0`. -/
def trainScore (problemType : String) (r : TrainResult) : ℚ :=
  if problemType = "classification" then
    (jsChain [r.test_metrics.bind Metrics.accuracy,
              r.training_metrics.bind Metrics.accuracy]).getD 0
  else if problemType = "regression" then
    (jsChain [r.test_metrics.bind Metrics.r2_score,
              r.training_metrics.bind Metrics.r2_score]).getD 0
  else if problemType = "clustering" then
    (jsChain [r.metrics.bind Metrics.silhouette_score]).getD 0
  else 0

/-- `modelResult.test_metrics || modelResult.training_metrics` (both ternary
branches of lines 116–118 are identical): an object is truthy iff present. -/
def bestMetrics (r : TrainResult) : Option Metrics :=
  r.test_metrics.orElse (fun _ => r.training_metrics)

/-- Mutable state of the `for (const algorithm of algorithms)` loop:
the `results` object (a JS object is a finite map; modelled as a lookup
function), the running `bestModel` and `bestScore`.  `bestScore` starts at
`-Infinity`, modelled as `⊥`. -/
structure LoopState where
  results : String → Option TrainEntry
  bestModel : Option BestModel
  bestScore : WithBot ℚ

/-- Initial loop state: `results = {}`, `bestModel = null`,
`bestScore = -Infinity`. -/
def initState : LoopState :=
  ⟨fun _ => none, none, ⊥⟩

/-- One iteration of the orchestrator loop for `algorithm`, with the remote
service abstracted as an oracle `f`.  On success the result is stored and
the best model is updated when `score > bestScore`; on failure only the
error record is stored (`catch` branch, lines 121–127). -/
def trainStep (f : String → Except String TrainResult) (problemType : String)
    (s : LoopState) (algorithm : String) : LoopState :=
  match f algorithm with
  | .ok r =>
    let score := trainScore problemType r
    let s' : LoopState :=
      { s with results := fun a => if a = algorithm then some (.ok r) else s.results a }
    if s.bestScore < (score : WithBot ℚ) then
      { s' with bestModel := some ⟨algorithm, score, bestMetrics r⟩
                bestScore := (score : WithBot ℚ) }
    else s'
  | .error msg =>
    { s with results := fun a => if a = algorithm then some (.err msg) else s.results a }

/-- The whole training loop (lines 82–128). -/
def trainLoop (f : String → Except String TrainResult) (problemType : String)
    (algorithms : List String) : LoopState :=
  algorithms.foldl (trainStep f problemType) initState

/-- The HTTP response of `trainMultipleModels`, restricted to the fields the
specification talks about (`summary` bookkeeping and the experiment id are
elided). -/
structure TrainResponse where
  status : ℕ
  success : Bool
  results : String → Option TrainEntry
  bestModel : Option BestModel

/-- The `trainMultipleModels` handler after the dataset has been loaded,
with I/O abstracted: the empty-algorithm validation (line 18) and the
dataset lookup (line 31) guard the loop; afterwards the handler always
responds with status 200 (line 143), whatever mix of per-algorithm successes
and failures occurred. -/
def trainMultipleHandler (f : String → Except String TrainResult)
    (problemType : String) (algorithms : List String) (datasetFound : Bool) :
    TrainResponse :=
  if algorithms = [] then
    { status := 400, success := false, results := fun _ => none, bestModel := none }
  else if !datasetFound then
    { status := 404, success := false, results := fun _ => none, bestModel := none }
  else
    let s := trainLoop f problemType algorithms
    { status := 200, success := true, results := s.results, bestModel := s.bestModel }

/-! ## Row conversion and train/test split (orchestrator lines 58–75) -/

/-- A JS value in a data cell: a string, a finite number, the number `NaN`,
or `undefined`. -/
inductive JSValue where
  | str (s : String)
  | num (q : ℚ)
  | nan
  | undef
deriving Repr, DecidableEq

/-- Numeric value of a list of decimal digit characters. -/
def digitsVal (l : List Char) : ℕ :=
  l.foldl (fun n c => 10 * n + (c.toNat - 48)) 0

/-- Parse a complete decimal literal `[+-]? digits [. digits]?`
(e.g. `"3.5"`, `"-2"`, `".5"`); `none` for anything else.  This covers the
numeric literals relevant to CSV cells (exponent/hex forms are not
modelled). -/
def parseDecimal (s : String) : Option ℚ :=
  let cs := s.toList
  let signNeg : Bool := cs.head? = some '-'
  let body := if cs.head? = some '-' || cs.head? = some '+' then cs.tail else cs
  let intPart := body.takeWhile Char.isDigit
  let rest := body.dropWhile Char.isDigit
  let mag : Option ℚ :=
    match rest with
    | [] => if intPart.isEmpty then none else some (digitsVal intPart : ℚ)
    | '.' :: frac =>
      if frac.all Char.isDigit && !(intPart.isEmpty && frac.isEmpty) then
        some ((digitsVal intPart : ℚ) + (digitsVal frac : ℚ) / 10 ^ frac.length)
      else none
    | _ => none
  mag.map (fun v => if signNeg then -v else v)

/-- JS `Number(v)` as an `Option ℚ` (`none` = `NaN`): the empty string
converts to `0` (the quirk behind the claim), any other string is parsed as
a decimal literal; `undefined` converts to `NaN`.  (The whitespace trimming
that the JS builtins also perform is not modelled; cells with surrounding
whitespace are out of scope here.) -/
def jsNumber (v : JSValue) : Option ℚ :=
  match v with
  | .str s => if s = "" then some 0 else parseDecimal s
  | .num q => some q
  | .nan => none
  | .undef => none

/-- JS global `isNaN(v)`: true iff `Number(v)` is `NaN`. -/
def jsIsNaN (v : JSValue) : Bool :=
  (jsNumber v).isNone

/-- JS `parseFloat(v)` (`none` = `NaN`) on the values reachable in the cell
coercion: the empty string yields `NaN` and a full decimal literal yields
its value.  (`parseFloat`'s longest-numeric-prefix behavior is unreachable
here: every string cell passed to it already satisfies `!isNaN`, i.e. is
the empty string or a full literal.) -/
def jsParseFloat (v : JSValue) : Option ℚ :=
  match v with
  | .str s => parseDecimal s
  | .num q => some q
  | .nan => none
  | .undef => none

/-- The per-cell coercion of lines 59–68:
`isNaN(val) ? val : parseFloat(val)`. -/
def coerceCell (v : JSValue) : JSValue :=
  if jsIsNaN v then v
  else
    match jsParseFloat v with
    | some q => .num q
    | none => .nan

/-- `trainSize = Math.floor(X.length * (1 - testSize))` (line 71). -/
def trainSizeOf (n : ℕ) (testSize : ℚ) : ℤ :=
  ⌊(n : ℚ) * (1 - testSize)⌋

/-- Lines 71–75: `X.slice(0, trainSize)` and `X.slice(trainSize)`.
For `0 ≤ testSize ≤ 1` the train size is nonnegative, so `slice` is plain
take/drop (JS negative-index slicing is outside the modelled range). -/
def splitRows {α : Type*} (rows : List α) (testSize : ℚ) : List α × List α :=
  let k := (trainSizeOf rows.length testSize).toNat
  (rows.take k, rows.drop k)

/-! ## Claim-side variant and concrete instances

`findBestModelRegZero` is *not* translated from the source: it follows the
specification's words for the regression branch, to be compared with the
code's `findBestModel`.  The remaining definitions are concrete records used
to instantiate the theorems below. -/

/-- Modelled from the spec's words (not from the source), for comparison
with `findBestModel`: the regression branch with the metric-missing fallback
`0` used for the *compared* value as well (the spec states "missing fields
resolve to 0", i.e. `r2_score || test_metrics?.r2_score || 0` on both sides
of the comparison). -/
def findBestModelRegZero (models : List ModelResult) : Option ModelResult :=
  match models with
  | [] => none
  | m0 :: _ =>
    let best := runBest regMetricPrim m0 models
    some { best with primaryMetric := some (regMetricPrim best) }

/-- A regression result with no `r2_score` anywhere ("no data"). -/
def c3NoData : ModelResult := {}

/-- A regression result with a genuinely negative R² (−1/2; written with
`mkRat` so that concrete statements are kernel-decidable). -/
def c3Negative : ModelResult := { r2_score := some (mkRat (-1) 2) }

/-- A classification-shaped result with a low flattened `f1_score` (0.1). -/
def c4Low : ModelResult := { f1_score := some (mkRat 1 10) }

/-- A classification-shaped result with a high flattened `f1_score` (0.9). -/
def c4High : ModelResult := { f1_score := some (mkRat 9 10) }

/-- A result whose flattened `f1_score` is present but `0` (falsy) while
`test_metrics.f1_score` is `0.5`. -/
def c9Model : ModelResult :=
  { f1_score := some 0, test_metrics := some { f1_score := some (mkRat 1 2) } }

/-- A training result whose test metrics are present but `0` (falsy) while
the training metrics carry nonzero values. -/
def c9Train : TrainResult :=
  { test_metrics := some { accuracy := some 0, r2_score := some 0 }
    training_metrics := some { accuracy := some (mkRat 3 4), r2_score := some (mkRat 2 5) } }

/-- A remote-service oracle that fails for algorithm `"b"` and succeeds for
every other algorithm. -/
def c1Oracle : String → Except String TrainResult := fun a =>
  if a = "b" then .error "service unavailable"
  else .ok { test_metrics := some { accuracy := some (mkRat 4 5) } }

/-- A remote-service oracle that succeeds for every algorithm with test
accuracy `3/5`. -/
def c8Oracle : String → Except String TrainResult := fun _ =>
  .ok { test_metrics := some { accuracy := some (mkRat 3 5) } }

/-- The best-model record the orchestrator builds for `c8Oracle` on the
algorithm list `["a"]`. -/
def c8Best : BestModel :=
  { algorithm := "a", score := mkRat 3 5
    metrics := some { accuracy := some (mkRat 3 5) } }

/-- A remote-service oracle that fails for every algorithm. -/
def c6Oracle : String → Except String TrainResult := fun _ => .error "down"

/-! ## Properties of the linear scan -/

/-- Scanning the initial element against itself is a no-op, so folding over
the whole array starting from its head equals folding over the tail. -/
theorem runBest_cons_self {α β : Type*} [LinearOrder β] (ext : α → β)
    (b : α) (l : List α) :
    runBest ext b (b :: l) = runBest ext b l := by
  simp [runBest]

/-- Structure of the strict-replacement scan: either the initial element
survives and dominates (non-strictly) everything scanned, or the result sits
at a position of the list such that everything before it is strictly
smaller and everything after it is at most it. -/
theorem runBest_split {α β : Type*} [LinearOrder β] (ext : α → β)
    (l : List α) :
    ∀ b : α,
      (runBest ext b l = b ∧ ∀ m ∈ l, ext m ≤ ext b) ∨
      (∃ l1 l2, l = l1 ++ runBest ext b l :: l2 ∧
        ext b < ext (runBest ext b l) ∧
        (∀ m ∈ l1, ext m < ext (runBest ext b l)) ∧
        (∀ m ∈ l2, ext m ≤ ext (runBest ext b l))) := by
  induction l with
  | nil =>
    intro b
    exact Or.inl ⟨rfl, by simp⟩
  | cons m l ih =>
    intro b
    by_cases h : ext b < ext m
    · have hr : runBest ext b (m :: l) = runBest ext m l := by
        simp [runBest, h]
      rw [hr]
      rcases ih m with ⟨heq, hle⟩ | ⟨l1, l2, hsplit, hlt, h1, h2⟩
      · refine Or.inr ⟨[], l, ?_, ?_, ?_, ?_⟩
        · rw [heq]; rfl
        · rw [heq]; exact h
        · intro x hx; simp at hx
        · rw [heq]; exact hle
      · refine Or.inr ⟨m :: l1, l2, ?_, ?_, ?_, h2⟩
        · rw [List.cons_append, ← hsplit]
        · exact h.trans hlt
        · intro x hx
          rcases List.mem_cons.1 hx with rfl | hx
          · exact hlt
          · exact h1 x hx
    · have hr : runBest ext b (m :: l) = runBest ext b l := by
        simp [runBest, h]
      rw [hr]
      rcases ih b with ⟨heq, hle⟩ | ⟨l1, l2, hsplit, hlt, h1, h2⟩
      · refine Or.inl ⟨heq, ?_⟩
        intro x hx
        rcases List.mem_cons.1 hx with rfl | hx
        · exact le_of_not_lt h
        · exact hle x hx
      · refine Or.inr ⟨m :: l1, l2, ?_, hlt, ?_, h2⟩
        · rw [List.cons_append, ← hsplit]
        · intro x hx
          rcases List.mem_cons.1 hx with rfl | hx
          · exact lt_of_le_of_lt (le_of_not_lt h) hlt
          · exact h1 x hx

/-- The scan started at the head of a nonempty list returns the earliest
maximum: the list splits around the result, elements before it strictly
smaller, elements after it no greater. -/
theorem runBest_first_argmax {α β : Type*} [LinearOrder β] (ext : α → β)
    (m0 : α) (rest : List α) :
    ∃ l1 l2, m0 :: rest = l1 ++ runBest ext m0 (m0 :: rest) :: l2 ∧
      (∀ m ∈ l1, ext m < ext (runBest ext m0 (m0 :: rest))) ∧
      (∀ m ∈ l2, ext m ≤ ext (runBest ext m0 (m0 :: rest))) := by
  rw [runBest_cons_self]
  rcases runBest_split ext rest m0 with ⟨heq, hle⟩ | ⟨l1, l2, hsplit, hlt, h1, h2⟩
  · refine ⟨[], rest, ?_, ?_, ?_⟩
    · rw [heq]; rfl
    · intro x hx; simp at hx
    · rw [heq]; exact hle
  · refine ⟨m0 :: l1, l2, ?_, ?_, h2⟩
    · rw [List.cons_append, ← hsplit]
    · intro x hx
      rcases List.mem_cons.1 hx with rfl | hx
      · exact hlt
      · exact h1 x hx

/-- The scan result is an element of the scanned list. -/
theorem runBest_mem {α β : Type*} [LinearOrder β] (ext : α → β)
    (m0 : α) (rest : List α) :
    runBest ext m0 (m0 :: rest) ∈ m0 :: rest := by
  obtain ⟨l1, l2, hsplit, -, -⟩ := runBest_first_argmax ext m0 rest
  set r := runBest ext m0 (m0 :: rest) with hr
  rw [hsplit]
  exact List.mem_append_right _ (List.mem_cons_self _ _)

/-! ## Properties of the orchestrator loop -/

/-- The entry the loop stores for algorithm `a` (the oracle is a function,
so the stored entry is determined by `f a`). -/
def entryFor (f : String → Except String TrainResult) (a : String) : TrainEntry :=
  match f a with
  | .ok r => .ok r
  | .error msg => .err msg

/-- One loop step writes exactly the entry for its algorithm and leaves the
rest of the `results` object alone. -/
theorem trainStep_results (f : String → Except String TrainResult)
    (pt : String) (s : LoopState) (b a : String) :
    (trainStep f pt s b).results a
      = if a = b then some (entryFor f b) else s.results a := by
  unfold trainStep entryFor
  cases hf : f b with
  | ok r =>
    dsimp only
    rw [apply_ite LoopState.results]
    simp
  | error msg => rfl

/-- After folding the loop over `algs`, the `results` object holds the entry
for every algorithm of `algs` and is otherwise the initial object. -/
theorem foldl_trainStep_results (f : String → Except String TrainResult)
    (pt : String) (algs : List String) :
    ∀ (s : LoopState) (a : String),
      (algs.foldl (trainStep f pt) s).results a
        = if a ∈ algs then some (entryFor f a) else s.results a := by
  induction algs with
  | nil => intro s a; simp
  | cons b algs ih =>
    intro s a
    rw [List.foldl_cons, ih, trainStep_results]
    by_cases h1 : a ∈ algs
    · simp [h1]
    · by_cases h2 : a = b
      · subst h2; simp [h1]
      · simp [h1, h2]

/-- `results` after the whole loop: an entry for exactly the requested
algorithms. -/
theorem trainLoop_results (f : String → Except String TrainResult)
    (pt : String) (algs : List String) (a : String) :
    (trainLoop f pt algs).results a
      = if a ∈ algs then some (entryFor f a) else none :=
  foldl_trainStep_results f pt algs initState a

/-- Soundness of the running best: whenever `bestModel` is set, its
algorithm is in `dom`, its remote call succeeded, and its `score` and
`metrics` come from that call's result. -/
def GoodBest (f : String → Except String TrainResult) (pt : String)
    (dom : String → Prop) (s : LoopState) : Prop :=
  ∀ b, s.bestModel = some b →
    dom b.algorithm ∧
    ∃ r, f b.algorithm = .ok r ∧ b.score = trainScore pt r ∧
      b.metrics = bestMetrics r

theorem goodBest_mono {f : String → Except String TrainResult} {pt : String}
    {dom dom' : String → Prop} {s : LoopState}
    (hsub : ∀ a, dom a → dom' a) (h : GoodBest f pt dom s) :
    GoodBest f pt dom' s := by
  intro b hb
  obtain ⟨hd, hr⟩ := h b hb
  exact ⟨hsub _ hd, hr⟩

theorem trainStep_good {f : String → Except String TrainResult} {pt : String}
    {dom : String → Prop} {s : LoopState} (b : String)
    (h : GoodBest f pt dom s) :
    GoodBest f pt (fun a => a = b ∨ dom a) (trainStep f pt s b) := by
  intro bm hbm
  unfold trainStep at hbm
  cases hf : f b with
  | ok r =>
    rw [hf] at hbm
    dsimp only at hbm
    split at hbm
    · dsimp only at hbm
      obtain rfl := Option.some_injective _ hbm.symm
      exact ⟨Or.inl rfl, r, hf, rfl, rfl⟩
    · obtain ⟨hd, hr⟩ := h bm hbm
      exact ⟨Or.inr hd, hr⟩
  | error msg =>
    rw [hf] at hbm
    obtain ⟨hd, hr⟩ := h bm hbm
    exact ⟨Or.inr hd, hr⟩

theorem foldl_trainStep_good {f : String → Except String TrainResult}
    {pt : String} (algs : List String) :
    ∀ (dom : String → Prop) (s : LoopState), GoodBest f pt dom s →
      GoodBest f pt (fun a => a ∈ algs ∨ dom a) (algs.foldl (trainStep f pt) s) := by
  induction algs with
  | nil =>
    intro dom s h
    exact goodBest_mono (fun a ha => Or.inr ha) h
  | cons b algs ih =>
    intro dom s h
    rw [List.foldl_cons]
    have h1 := ih (fun a => a = b ∨ dom a) (trainStep f pt s b) (trainStep_good b h)
    refine goodBest_mono ?_ h1
    intro a ha
    rcases ha with ha | rfl | ha
    · exact Or.inl (List.mem_cons_of_mem _ ha)
    · exact Or.inl (List.mem_cons_self _ _)
    · exact Or.inr ha

/-- Soundness of `bestModel` after the whole loop. -/
theorem trainLoop_best (f : String → Except String TrainResult)
    (pt : String) (algs : List String) :
    ∀ b, (trainLoop f pt algs).bestModel = some b →
      b.algorithm ∈ algs ∧
      ∃ r, f b.algorithm = .ok r ∧ b.score = trainScore pt r ∧
        b.metrics = bestMetrics r := by
  have h0 : GoodBest f pt (fun _ => False) initState := by
    intro b hb
    simp [initState] at hb
  intro b hb
  obtain ⟨hd, hr⟩ := foldl_trainStep_good algs (fun _ => False) initState h0 b hb
  rcases hd with hd | hd
  · exact ⟨hd, hr⟩
  · exact absurd hd (fun h => h)

/-- A failing step leaves `bestModel` untouched. -/
theorem trainStep_best_of_error {f : String → Except String TrainResult}
    {pt : String} {s : LoopState} {b : String} {msg : String}
    (hf : f b = .error msg) :
    (trainStep f pt s b).bestModel = s.bestModel := by
  unfold trainStep
  rw [hf]

/-- If every requested algorithm fails, the loop never sets a best model. -/
theorem foldl_trainStep_best_none (f : String → Except String TrainResult)
    (pt : String) (algs : List String) :
    ∀ s : LoopState, (∀ a ∈ algs, ∃ msg, f a = .error msg) →
      (algs.foldl (trainStep f pt) s).bestModel = s.bestModel := by
  induction algs with
  | nil => intro s _; rfl
  | cons b algs ih =>
    intro s hfail
    obtain ⟨msg, hmsg⟩ := hfail b (List.mem_cons_self _ _)
    rw [List.foldl_cons, ih _ (fun a ha => hfail a (List.mem_cons_of_mem _ ha)),
      trainStep_best_of_error hmsg]

/-! ## Claim theorems -/

/-- C1: in the multi-model training orchestrator, a remote-training failure
for one algorithm is caught and recorded for that algorithm alone as the
error record (`{error: msg, training_metrics: null}`, the `TrainEntry.err`
shape); every requested algorithm gets an entry in the results map (every
remaining one is attempted), no other key is touched, and `bestModel` is
only ever a successfully trained algorithm of the request, with its score
extracted from that algorithm's remote result. -/
theorem trainMultiple_failure_isolation (f : String → Except String TrainResult)
    (problemType : String) (algorithms : List String) :
    (∀ a ∈ algorithms, ∀ msg, f a = .error msg →
       (trainLoop f problemType algorithms).results a = some (.err msg)) ∧
    (∀ a ∈ algorithms,
       ((trainLoop f problemType algorithms).results a).isSome = true) ∧
    (∀ a, a ∉ algorithms → (trainLoop f problemType algorithms).results a = none) ∧
    (∀ b, (trainLoop f problemType algorithms).bestModel = some b →
       b.algorithm ∈ algorithms ∧
       ∃ r, f b.algorithm = .ok r ∧ b.score = trainScore problemType r ∧
         b.metrics = bestMetrics r) := by
  refine ⟨?_, ?_, ?_, trainLoop_best f problemType algorithms⟩
  · intro a ha msg hmsg
    rw [trainLoop_results, if_pos ha]
    unfold entryFor
    rw [hmsg]
  · intro a ha
    rw [trainLoop_results, if_pos ha]
    rfl
  · intro a ha
    rw [trainLoop_results, if_neg ha]

theorem trainMultiple_failure_isolation_witness :
    (trainLoop c1Oracle "classification" ["a", "b", "c"]).results "b"
        = some (.err "service unavailable") ∧
    (trainLoop c1Oracle "classification" ["a", "b", "c"]).results "z" = none :=
  ⟨(trainMultiple_failure_isolation c1Oracle "classification" ["a", "b", "c"]).1
      "b" (by decide) "service unavailable" rfl,
   (trainMultiple_failure_isolation c1Oracle "classification" ["a", "b", "c"]).2.2.1
      "z" (by decide)⟩

/-- C2: for every non-empty model list and each of the three handled problem
types, `findBestModel` returns an element of the input list (annotated in
place with `primaryMetric`), namely the earliest element among those with
maximal compared metric: the list splits around the winner with every
earlier element strictly smaller and every later element no greater (the
running best is replaced only on strictly greater metric).  For
classification and clustering the annotation equals the compared metric;
for regression the code compares the `-Infinity`-fallback chain
`regMetricCmp` and annotates with its `0`-fallback variant `regMetricPrim`
(these agree whenever the chain finds a truthy value). -/
theorem findBestModel_first_argmax (m0 : ModelResult) (rest : List ModelResult) :
    (∃ b l1 l2,
       findBestModel (m0 :: rest) "classification"
           = some { b with primaryMetric := some (clsMetric b) } ∧
       m0 :: rest = l1 ++ b :: l2 ∧
       (∀ m ∈ l1, clsMetric m < clsMetric b) ∧
       (∀ m ∈ l2, clsMetric m ≤ clsMetric b)) ∧
    (∃ b l1 l2,
       findBestModel (m0 :: rest) "regression"
           = some { b with primaryMetric := some (regMetricPrim b) } ∧
       m0 :: rest = l1 ++ b :: l2 ∧
       (∀ m ∈ l1, regMetricCmp m < regMetricCmp b) ∧
       (∀ m ∈ l2, regMetricCmp m ≤ regMetricCmp b)) ∧
    (∃ b l1 l2,
       findBestModel (m0 :: rest) "clustering"
           = some { b with primaryMetric := some (clusMetric b) } ∧
       m0 :: rest = l1 ++ b :: l2 ∧
       (∀ m ∈ l1, clusMetric m < clusMetric b) ∧
       (∀ m ∈ l2, clusMetric m ≤ clusMetric b)) := by
  refine ⟨?_, ?_, ?_⟩
  · obtain ⟨l1, l2, hsplit, h1, h2⟩ := runBest_first_argmax clsMetric m0 rest
    exact ⟨runBest clsMetric m0 (m0 :: rest), l1, l2, rfl, hsplit, h1, h2⟩
  · obtain ⟨l1, l2, hsplit, h1, h2⟩ := runBest_first_argmax regMetricCmp m0 rest
    exact ⟨runBest regMetricCmp m0 (m0 :: rest), l1, l2, rfl, hsplit, h1, h2⟩
  · obtain ⟨l1, l2, hsplit, h1, h2⟩ := runBest_first_argmax clusMetric m0 rest
    exact ⟨runBest clusMetric m0 (m0 :: rest), l1, l2, rfl, hsplit, h1, h2⟩

/-- C7: the best-model selector applied to the empty model list returns
`null` for every problem type (the embedding is total, so no exception can
occur). -/
theorem findBestModel_empty (problemType : String) :
    findBestModel [] problemType = none := rfl

/-- C3 counterexample: the claim says the compared value for a regression
result missing both `r2_score` fields is `0`.  In the code it is
`-Infinity` (`⊥`): against a model with R² = −1/2 the no-data model loses,
whereas under the claimed `0` fallback (`findBestModelRegZero`, modelled
from the spec's words) it would win. -/
theorem regression_zero_fallback_cex :
    regMetricCmp c3NoData = ⊥ ∧
    regMetricCmp c3NoData ≠ ((0 : ℚ) : WithBot ℚ) ∧
    findBestModel [c3NoData, c3Negative] "regression"
        = some { c3Negative with primaryMetric := some (mkRat (-1) 2) } ∧
    findBestModelRegZero [c3NoData, c3Negative]
        = some { c3NoData with primaryMetric := some 0 } ∧
    findBestModel [c3NoData, c3Negative] "regression"
        ≠ findBestModelRegZero [c3NoData, c3Negative] := by
  refine ⟨rfl, by decide, by decide, by decide, by decide⟩

/-- C3 amended: for regression, a ModelResult missing both its flattened
`r2_score` and `test_metrics.r2_score` is *compared* as `-Infinity` (`⊥`),
not `0`; the `0` fallback applies only to the `primaryMetric` annotation
written on the returned winner. -/
theorem regression_missing_metric_fallback (m : ModelResult)
    (h1 : m.r2_score = none)
    (h2 : m.test_metrics.bind Metrics.r2_score = none) :
    regMetricCmp m = ⊥ ∧ regMetricPrim m = 0 ∧
    findBestModel [m] "regression" = some { m with primaryMetric := some 0 } := by
  have hc : jsChain [m.r2_score, m.test_metrics.bind Metrics.r2_score] = none := by
    simp [jsChain, h1, h2, jsTruthy]
  have hprim : regMetricPrim m = 0 := by simp [regMetricPrim, hc]
  refine ⟨by simp [regMetricCmp, hc], hprim, ?_⟩
  have hr : runBest regMetricCmp m [m] = m := by simp [runBest]
  have hfb : findBestModel [m] "regression"
      = some { runBest regMetricCmp m [m] with
                 primaryMetric := some (regMetricPrim (runBest regMetricCmp m [m])) } := rfl
  rw [hfb, hr, hprim]

theorem regression_missing_metric_fallback_witness :
    regMetricCmp c3NoData = ⊥ ∧ regMetricPrim c3NoData = 0 ∧
    findBestModel [c3NoData] "regression"
        = some { c3NoData with primaryMetric := some 0 } :=
  regression_missing_metric_fallback c3NoData rfl rfl

/-- C4 counterexample: for `problemType = "dimensionality_reduction"` the
code does *not* apply the classification rule: it returns the first model
unchanged (no comparison, no `primaryMetric`), while the classification rule
on the same input returns the second model annotated with `0.9`. -/
theorem unknown_type_cex :
    findBestModel [c4Low, c4High] "dimensionality_reduction" = some c4Low ∧
    findBestModel [c4Low, c4High] "classification"
        = some { c4High with primaryMetric := some (mkRat 9 10) } ∧
    findBestModel [c4Low, c4High] "dimensionality_reduction"
        ≠ findBestModel [c4Low, c4High] "classification" := by
  refine ⟨by decide, by decide, by decide⟩

/-- C4 amended: for every problem type outside
classification/regression/clustering, `findBestModel` performs no metric
comparison at all: it falls through every branch and returns the first
element of the list unchanged, without a `primaryMetric` annotation. -/
theorem findBestModel_unknown_type (problemType : String) (m0 : ModelResult)
    (rest : List ModelResult)
    (h1 : problemType ≠ "classification") (h2 : problemType ≠ "regression")
    (h3 : problemType ≠ "clustering") :
    findBestModel (m0 :: rest) problemType = some m0 := by
  simp [findBestModel, h1, h2, h3]

theorem findBestModel_unknown_type_witness :
    findBestModel [c4Low, c4High] "dimensionality_reduction" = some c4Low :=
  findBestModel_unknown_type "dimensionality_reduction" c4Low [c4High]
    (by decide) (by decide) (by decide)

/-- C9: metric extraction treats a present-but-`0` metric as missing (JS
`||` falsiness): a classification result with flattened `f1_score = 0` and
a nonzero `test_metrics.f1_score` extracts the latter, and the
orchestrator's accuracy and R² score chains fall through a `0` test metric
to the training metric in the same way. -/
theorem falsy_zero_metric_fallthrough :
    (∀ (m : ModelResult) (v : ℚ), m.f1_score = some 0 →
       m.test_metrics.bind Metrics.f1_score = some v → v ≠ 0 →
       clsMetric m = v) ∧
    (∀ (r : TrainResult) (a : ℚ),
       r.test_metrics.bind Metrics.accuracy = some 0 →
       r.training_metrics.bind Metrics.accuracy = some a → a ≠ 0 →
       trainScore "classification" r = a) ∧
    (∀ (r : TrainResult) (a : ℚ),
       r.test_metrics.bind Metrics.r2_score = some 0 →
       r.training_metrics.bind Metrics.r2_score = some a → a ≠ 0 →
       trainScore "regression" r = a) := by
  refine ⟨?_, ?_, ?_⟩
  · intro m v h1 h2 hv
    simp [clsMetric, jsChain, jsTruthy, h1, h2, hv]
  · intro r a h1 h2 ha
    simp [trainScore, jsChain, jsTruthy, h1, h2, ha]
  · intro r a h1 h2 ha
    simp [trainScore, jsChain, jsTruthy, h1, h2, ha]

theorem falsy_zero_metric_fallthrough_witness :
    clsMetric c9Model = mkRat 1 2 ∧
    trainScore "classification" c9Train = mkRat 3 4 ∧
    trainScore "regression" c9Train = mkRat 2 5 :=
  ⟨falsy_zero_metric_fallthrough.1 c9Model (mkRat 1 2) rfl rfl (by decide),
   falsy_zero_metric_fallthrough.2.1 c9Train (mkRat 3 4) rfl rfl (by decide),
   falsy_zero_metric_fallthrough.2.2 c9Train (mkRat 2 5) rfl rfl (by decide)⟩

/-- C5: the orchestrator's train/test split is deterministic and
positional: the train part is exactly the contiguous prefix of
`floor(n * (1 - testSize))` rows (row `i` of the train part is row `i` of
the input), the test part is the remaining suffix (row `j` of the test part
is input row `trainSize + j`), their concatenation is the input unchanged,
and for `n = 100`, `testSize = 0.2` the sizes are exactly 80 and 20. -/
theorem splitRows_positional {α : Type*} (rows : List α) (t : ℚ)
    (h0 : 0 ≤ t) (h1 : t ≤ 1) :
    (splitRows rows t).1 ++ (splitRows rows t).2 = rows ∧
    (splitRows rows t).1.length
        = min (trainSizeOf rows.length t).toNat rows.length ∧
    (splitRows rows t).2.length
        = rows.length - (trainSizeOf rows.length t).toNat ∧
    (∀ i : ℕ, i < (trainSizeOf rows.length t).toNat →
       (splitRows rows t).1[i]? = rows[i]?) ∧
    (∀ j : ℕ,
       (splitRows rows t).2[j]? = rows[(trainSizeOf rows.length t).toNat + j]?) ∧
    (rows.length = 100 → t = 1 / 5 →
       (trainSizeOf rows.length t).toNat = 80 ∧
       (splitRows rows t).1.length = 80 ∧ (splitRows rows t).2.length = 20) := by
  refine ⟨List.take_append_drop _ _, List.length_take _ _, List.length_drop _ _,
    ?_, ?_, ?_⟩
  · intro i hi
    show (rows.take (trainSizeOf rows.length t).toNat)[i]? = rows[i]?
    rw [List.getElem?_take, if_pos hi]
  · intro j
    exact List.getElem?_drop rows (trainSizeOf rows.length t).toNat j
  · intro h100 ht
    subst ht
    have hfloor : trainSizeOf 100 (1 / 5) = 80 := by
      norm_num [trainSizeOf]
    have hsize : (trainSizeOf rows.length (1 / 5)).toNat = 80 := by
      rw [h100, hfloor]
      rfl
    refine ⟨hsize, ?_, ?_⟩
    · show (rows.take (trainSizeOf rows.length (1 / 5)).toNat).length = 80
      rw [List.length_take, hsize, h100]
      decide
    · show (rows.drop (trainSizeOf rows.length (1 / 5)).toNat).length = 20
      rw [List.length_drop, hsize, h100]

theorem splitRows_positional_witness :
    (splitRows (List.range 100) (1 / 5)).1.length = 80 ∧
    (splitRows (List.range 100) (1 / 5)).2.length = 20 := by
  have h := (splitRows_positional (List.range 100) (1 / 5)
    (by norm_num) (by norm_num)).2.2.2.2.2 (by simp) rfl
  exact ⟨h.2.1, h.2.2⟩

/-- C10: the per-cell numeric coercion maps the empty-string cell to `NaN`
(because `isNaN('')` is `false` — `Number('')` is `0` — so
`parseFloat('') = NaN` is taken), keeps a non-numeric non-empty string
unchanged, and converts a numeric string to its numeric value. -/
theorem coerceCell_cases :
    (jsIsNaN (.str "") = false ∧ jsParseFloat (.str "") = none ∧
       coerceCell (.str "") = .nan) ∧
    (∀ s : String, s ≠ "" → jsNumber (.str s) = none →
       coerceCell (.str s) = .str s) ∧
    (∀ (s : String) (q : ℚ), parseDecimal s = some q →
       coerceCell (.str s) = .num q) := by
  refine ⟨⟨rfl, rfl, rfl⟩, ?_, ?_⟩
  · intro s hs hnan
    simp [coerceCell, jsIsNaN, hnan]
  · intro s q h
    have hs : ¬ s = "" := by
      intro he
      rw [he] at h
      have hempty : parseDecimal "" = none := rfl
      rw [hempty] at h
      exact Option.noConfusion h
    have hnum : jsNumber (.str s) = some q := by
      simp [jsNumber, hs, h]
    simp [coerceCell, jsIsNaN, jsParseFloat, hnum, h]

theorem coerceCell_cases_witness :
    coerceCell (.str "abc") = .str "abc" ∧
    coerceCell (.str "42") = .num 42 ∧
    coerceCell (.str "3.5") = .num (mkRat 7 2) := by
  refine ⟨coerceCell_cases.2.1 "abc" (by decide) rfl,
    coerceCell_cases.2.2 "42" 42 ?_, coerceCell_cases.2.2 "3.5" (mkRat 7 2) ?_⟩
  · have h : parseDecimal "42" = some ((digitsVal ['4', '2'] : ℕ) : ℚ) := rfl
    rw [h, show digitsVal ['4', '2'] = 42 from by decide]
    norm_num
  · have h : parseDecimal "3.5"
        = some ((digitsVal ['3'] : ℚ) + (digitsVal ['5'] : ℚ) / 10 ^ (['5'].length)) := rfl
    rw [h, show digitsVal ['3'] = 3 from by decide,
      show digitsVal ['5'] = 5 from by decide]
    norm_num [Rat.mkRat_eq_div]

/-- C6: when every requested algorithm's remote call fails, the request
still succeeds: the handler (past validation and dataset lookup) responds
with status 200 and `success: true`, `bestModel` is `null`, and every entry
of the results map is an error record. -/
theorem allFail_still_succeeds (f : String → Except String TrainResult)
    (problemType : String) (algorithms : List String)
    (hne : algorithms ≠ [])
    (hfail : ∀ a ∈ algorithms, ∃ msg, f a = .error msg) :
    (trainMultipleHandler f problemType algorithms true).status = 200 ∧
    (trainMultipleHandler f problemType algorithms true).success = true ∧
    (trainMultipleHandler f problemType algorithms true).bestModel = none ∧
    (∀ a ∈ algorithms, ∃ msg,
       (trainMultipleHandler f problemType algorithms true).results a
         = some (.err msg)) := by
  have hh : trainMultipleHandler f problemType algorithms true
      = { status := 200, success := true,
          results := (trainLoop f problemType algorithms).results,
          bestModel := (trainLoop f problemType algorithms).bestModel } := by
    unfold trainMultipleHandler
    rw [if_neg hne]
    rfl
  rw [hh]
  refine ⟨rfl, rfl, ?_, ?_⟩
  · show (trainLoop f problemType algorithms).bestModel = none
    unfold trainLoop
    rw [foldl_trainStep_best_none f problemType algorithms initState hfail]
    rfl
  · intro a ha
    obtain ⟨msg, hmsg⟩ := hfail a ha
    refine ⟨msg, ?_⟩
    show (trainLoop f problemType algorithms).results a = some (.err msg)
    rw [trainLoop_results, if_pos ha]
    unfold entryFor
    rw [hmsg]

theorem allFail_still_succeeds_witness :
    (trainMultipleHandler c6Oracle "classification" ["a"] true).status = 200 ∧
    (trainMultipleHandler c6Oracle "classification" ["a"] true).success = true ∧
    (trainMultipleHandler c6Oracle "classification" ["a"] true).bestModel = none ∧
    (∀ a ∈ ["a"], ∃ msg,
       (trainMultipleHandler c6Oracle "classification" ["a"] true).results a
         = some (.err msg)) :=
  allFail_still_succeeds c6Oracle "classification" ["a"] (by decide)
    (fun _ _ => ⟨"down", rfl⟩)

/-- C8: the stored best model always references an entry of the same
results collection.  For the orchestrator: a non-null `bestModel` names an
algorithm whose `results` entry is a success record, with the score
extracted from exactly that entry, and `bestModel` is null when all
algorithms failed.  For `compareModels`: `findBestModel` on a nonempty list
returns an element of that list (possibly annotated in place with
`primaryMetric`), never a detached record. -/
theorem bestModel_references_results (f : String → Except String TrainResult)
    (pt : String) (algorithms : List String) :
    (∀ b, (trainLoop f pt algorithms).bestModel = some b →
       ∃ r, (trainLoop f pt algorithms).results b.algorithm = some (.ok r) ∧
         b.score = trainScore pt r) ∧
    ((∀ a ∈ algorithms, ∃ msg, f a = .error msg) →
       (trainLoop f pt algorithms).bestModel = none) ∧
    (∀ (m0 : ModelResult) (rest : List ModelResult) (problemType : String),
       ∃ b ∈ m0 :: rest,
         findBestModel (m0 :: rest) problemType = some b ∨
         ∃ q, findBestModel (m0 :: rest) problemType
             = some { b with primaryMetric := some q }) := by
  refine ⟨?_, ?_, ?_⟩
  · intro b hb
    obtain ⟨hmem, r, hfr, hscore, -⟩ := trainLoop_best f pt algorithms b hb
    refine ⟨r, ?_, hscore⟩
    rw [trainLoop_results, if_pos hmem]
    unfold entryFor
    rw [hfr]
  · intro hfail
    unfold trainLoop
    rw [foldl_trainStep_best_none f pt algorithms initState hfail]
    rfl
  · intro m0 rest problemType
    by_cases h1 : problemType = "classification"
    · subst h1
      exact ⟨runBest clsMetric m0 (m0 :: rest), runBest_mem clsMetric m0 rest,
        Or.inr ⟨clsMetric (runBest clsMetric m0 (m0 :: rest)), rfl⟩⟩
    · by_cases h2 : problemType = "regression"
      · subst h2
        exact ⟨runBest regMetricCmp m0 (m0 :: rest), runBest_mem regMetricCmp m0 rest,
          Or.inr ⟨regMetricPrim (runBest regMetricCmp m0 (m0 :: rest)), rfl⟩⟩
      · by_cases h3 : problemType = "clustering"
        · subst h3
          exact ⟨runBest clusMetric m0 (m0 :: rest), runBest_mem clusMetric m0 rest,
            Or.inr ⟨clusMetric (runBest clusMetric m0 (m0 :: rest)), rfl⟩⟩
        · exact ⟨m0, List.mem_cons_self _ _,
            Or.inl (by simp [findBestModel, h1, h2, h3])⟩

theorem bestModel_references_results_witness :
    ∃ r, (trainLoop c8Oracle "classification" ["a"]).results c8Best.algorithm
        = some (.ok r) ∧ c8Best.score = trainScore "classification" r :=
  (bestModel_references_results c8Oracle "classification" ["a"]).1 c8Best (by decide)

end MLServer
